import Mathlib

/-!
Verification of the FM40-updater raster pipeline.

The development shallowly embeds the per-pixel functions and control-flow
skeletons of the repository:

* `dist.py` — `convert_bs_to_dist` (time-code computation and per-pixel
  burn-severity → disturbance encoding), `combine_dist_rasters`
  (per-pixel impact-rank merge, empty-input short-circuit, and the
  try/except error-handling skeleton), together with the module constants
  `DIST_IMPACT_RANKING` and `DEFAULT_RANK`.
* `fm40_updater.py` — `get_new_fm40` (the per-pixel reclassifier) and the
  alignment-source selection of `update_fm40_raster`.
* `utils.py` — `aligned_vrt`; the nearest-neighbor resampling semantics of
  the underlying warped view is modelled from the specification, since the
  resampler itself lives in an external library.

Pixel values are embedded as `Int` (the rasters are integer coded), the
mutable numpy arrays as pure per-pixel functions, and Python `None` results
as `Option`.
-/

/-- Error taxonomy of the pipeline: invalid year arithmetic
(Python `ValueError`) and I/O failures carrying the offending path. -/
inductive FMError where
  | invalidInput
  | ioError (path : String)
deriving DecidableEq

/-- The module constant `DIST_IMPACT_RANKING` of `dist.py`: a dictionary from
disturbance code to impact rank (smaller = more impactful), embedded as the
corresponding partial lookup. -/
def DIST_IMPACT_RANKING (v : Int) : Option Nat :=
  if v = 131 then some 1
  else if v = 132 then some 2
  else if v = 133 then some 3
  else if v = 121 then some 4
  else if v = 122 then some 5
  else if v = 123 then some 6
  else if v = 111 then some 7
  else if v = 112 then some 8
  else if v = 113 then some 9
  else none

/-- `DEFAULT_RANK = 99` of `dist.py`: sentinel rank for values that are not
valid DIST codes (including nodata). -/
def DEFAULT_RANK : Nat := 99

/-- `DIST_IMPACT_RANKING.get(v, DEFAULT_RANK)` as vectorized over the data
stack in `combine_dist_rasters`. -/
def impact_rank (v : Int) : Nat :=
  (DIST_IMPACT_RANKING v).getD DEFAULT_RANK

/-- `np.argmin` along the stack axis: index of the first occurrence of the
minimum of a list (0 on the empty list, which the caller never passes). -/
def argminIdx : List Nat → Nat
  | [] => 0
  | r :: rest => if ∀ x ∈ rest, r ≤ x then 0 else argminIdx rest + 1

/-- Per-pixel combination logic of `combine_dist_rasters` (dist.py lines
184–194): map each code of the stack to its impact rank (`DEFAULT_RANK` for
unknown codes), select the code at the first index achieving the minimum
rank, then force the output to nodata when all inputs are nodata. -/
def combine_pixel (stack : List Int) (nodata_val : Int) : Int :=
  let impact_ranks := stack.map impact_rank
  let min_rank_idx := argminIdx impact_ranks
  let selected := stack.getD min_rank_idx 0
  if ∀ x ∈ stack, x = nodata_val then nodata_val else selected

/-- Control-flow skeleton of `combine_dist_rasters` (dist.py lines 159–206).
An empty path list returns `None` before any file is touched. Opening the
input rasters (line 166) happens outside the `try` block, so a failure there
propagates. Everything inside the `try` block — creating the output file and
the windowed processing loop, abstracted as `process` — is guarded by
`except Exception`, which only prints; the function then prints the success
message and returns `output_path` unconditionally. The returned `Bool`
records whether the output file was opened for writing. -/
def combine_dist_rasters (dist_raster_paths : List String) (output_path : String)
    (open_inputs : Except FMError Unit) (process : Except FMError Unit) :
    Except FMError (Option String × Bool) :=
  if dist_raster_paths.isEmpty then
    Except.ok (none, false)
  else
    match open_inputs with
    | Except.error e => Except.error e
    | Except.ok _ =>
      match process with
      | Except.ok _ => Except.ok (some output_path, true)
      | Except.error _ => Except.ok (some output_path, true)

/-- Input validation and time-code computation of `convert_bs_to_dist`
(dist.py lines 62–87): raises for a fire year after the effective year, then
buckets `years_since_fire = effective_year - fire_year` into time codes 1–3,
or `None` when the fire is outside the 10-year window. -/
def convert_bs_to_dist_time_code (fire_year effective_year : Int) :
    Except FMError (Option Nat) :=
  if fire_year > effective_year then
    Except.error FMError.invalidInput
  else if effective_year - fire_year < 1 then
    Except.ok (some 1)
  else if 1 ≤ effective_year - fire_year ∧ effective_year - fire_year ≤ 5 then
    Except.ok (some 2)
  else if 5 < effective_year - fire_year ∧ effective_year - fire_year ≤ 10 then
    Except.ok (some 3)
  else
    Except.ok none

/-- The dictionary `bs_to_dist_sev_map = {5: 1, 4: 3, 3: 2, 2: 1, 1: 1}` of
`convert_bs_to_dist`, embedded as a lookup. -/
def bs_to_dist_sev_map (v : Int) : Option Nat :=
  if v = 5 then some 1
  else if v = 4 then some 3
  else if v = 3 then some 2
  else if v = 2 then some 1
  else if v = 1 then some 1
  else none

/-- Per-pixel remapping of `convert_bs_to_dist` (dist.py lines 110–129):
with no time code the chunk stays at the nodata initialization (0); otherwise
`np.select` writes `100 + sev_code * 10 + time_code` where the pixel matches
a severity-map key and the nodata default (0) elsewhere. -/
def convert_bs_to_dist_pixel (time_code : Option Nat) (v : Int) : Int :=
  match time_code with
  | none => 0
  | some tc =>
    match bs_to_dist_sev_map v with
    | some sev_code => 100 + (sev_code : Int) * 10 + (tc : Int)
    | none => 0

/-- The nine valid disturbance codes together with the nodata value 0. -/
def valid_dist_codes : List Int :=
  [0, 111, 112, 113, 121, 122, 123, 131, 132, 133]

/-- Python `dict.get(key)` over the expanded rule table: the stored value
(itself possibly `None`, meaning a "no change" rule) when the key is
present, `None` when the key is absent. -/
def dictGet (rules : List ((Int × Int) × Option Int)) (k : Int × Int) :
    Option Int :=
  match rules with
  | [] => none
  | (k2, v) :: rest => if k = k2 then v else dictGet rest k

/-- The per-pixel lookup `get_new_fm40` of `update_fm40_raster`
(fm40_updater.py lines 72–82). `none` in the result embeds Python `None`
(the value `update_rules.get` produces for absent pairs and for pairs whose
stored value is the "no change" marker `None`). -/
def get_new_fm40 (update_rules : List ((Int × Int) × Option Int))
    (dist_nodata fm40_nodata : Int) (d_code o_code : Int) : Option Int :=
  if d_code = dist_nodata ∧ o_code = fm40_nodata then
    some fm40_nodata
  else if d_code = dist_nodata ∨ o_code ≤ 100 then
    some o_code
  else
    dictGet update_rules (d_code, o_code)

/-- Grid metadata of a north-up raster: CRS (abstracted to an identifier),
the nonzero affine coefficients (`a`, `c`, `e`, `f`; the rotation terms `b`
and `d` are zero for the north-up rasters the pipeline handles), and the
shape. -/
structure GridDescriptor where
  crs : Nat
  a : ℚ
  c : ℚ
  e : ℚ
  f : ℚ
  width : Nat
  height : Nat
deriving DecidableEq

/-- Whether a pixel-wise operation reads a raster directly (identity view)
or through a warped, resampled view. -/
inductive ViewChoice where
  | identity
  | warped
deriving DecidableEq

/-- Source selection of `update_fm40_raster` (fm40_updater.py lines 50–58):
the DIST raster is wrapped in `aligned_vrt` only when CRS, transform or
shape differ from the FM40 raster, otherwise it is read directly. -/
def update_fm40_dist_src (src_fm40 src_dist : GridDescriptor) : ViewChoice :=
  if src_dist.crs ≠ src_fm40.crs ∨
     (src_dist.a, src_dist.c, src_dist.e, src_dist.f) ≠
       (src_fm40.a, src_fm40.c, src_fm40.e, src_fm40.f) ∨
     (src_dist.height, src_dist.width) ≠ (src_fm40.height, src_fm40.width)
  then ViewChoice.warped
  else ViewChoice.identity

/-- Source selection of `convert_bs_to_dist` (dist.py lines 93–94): the burn
severity raster is always wrapped in `aligned_vrt`, with no check of whether
its grid already matches the alignment target. -/
def convert_bs_to_dist_src (alignment_src src : GridDescriptor) : ViewChoice :=
  ViewChoice.warped

/-- Affine pixel-center to world mapping of a north-up grid:
`x = a * col + c`, `y = e * row + f`. -/
def pixelToWorld (g : GridDescriptor) (col row : ℚ) : ℚ × ℚ :=
  (g.a * col + g.c, g.e * row + g.f)

/-- Inverse of `pixelToWorld` for a north-up grid with nonzero `a` and `e`. -/
def worldToPixel (g : GridDescriptor) (x y : ℚ) : ℚ × ℚ :=
  ((x - g.c) / g.a, (y - g.f) / g.e)

/-- Modelled from the spec: reading one pixel of a window through an aligned
view (`aligned_vrt` wraps the external `WarpedVRT` resampler, whose pixel
semantics is not in this repository). Per spec §4.1, the read at a target
pixel resamples the source by nearest neighbor — here: map the target pixel
center to world coordinates, map back into fractional source pixel
coordinates, take the containing source cell — and substitutes nodata where
the footprint falls outside the source extent. -/
def alignedRead (target source : GridDescriptor) (data : Nat → Nat → Int)
    (nodata : Int) (row col : Nat) : Int :=
  let w := pixelToWorld target ((col : ℚ) + 1/2) ((row : ℚ) + 1/2)
  let p := worldToPixel source w.1 w.2
  let sc : Int := ⌊p.1⌋
  let sr : Int := ⌊p.2⌋
  if 0 ≤ sc ∧ sc < (source.width : Int) ∧ 0 ≤ sr ∧ sr < (source.height : Int)
  then data sr.toNat sc.toNat
  else nodata

/-! ### Helper lemmas on list indexing and `argminIdx` -/

theorem getD_mem {α : Type} (l : List α) (j : Nat) (d : α)
    (hj : j < l.length) : l.getD j d ∈ l := by
  induction l generalizing j with
  | nil => simp at hj
  | cons a t ih =>
    cases j with
    | zero => simp
    | succ n =>
      rw [List.getD_cons_succ]
      exact List.mem_cons_of_mem _ (ih n (Nat.lt_of_succ_lt_succ hj))

theorem mem_getD {α : Type} (l : List α) (x : α) (d : α) (hx : x ∈ l) :
    ∃ n, n < l.length ∧ l.getD n d = x := by
  induction l with
  | nil => simp at hx
  | cons a t ih =>
    rcases List.mem_cons.mp hx with h | h
    · exact ⟨0, by simp, by simp [h]⟩
    · obtain ⟨n, hn, he⟩ := ih h
      exact ⟨n + 1, Nat.succ_lt_succ hn, by simpa [List.getD_cons_succ] using he⟩

theorem getD_map_rank (stack : List Int) (j : Nat) (hj : j < stack.length) :
    (stack.map impact_rank).getD j 0 = impact_rank (stack.getD j 0) := by
  induction stack generalizing j with
  | nil => simp at hj
  | cons a t ih =>
    cases j with
    | zero => simp
    | succ n =>
      simpa [List.getD_cons_succ] using ih n (Nat.lt_of_succ_lt_succ hj)

theorem argminIdx_lt (l : List Nat) (h : l ≠ []) : argminIdx l < l.length := by
  induction l with
  | nil => exact absurd rfl h
  | cons r rest ih =>
    by_cases hall : ∀ x ∈ rest, r ≤ x
    · simp only [argminIdx, if_pos hall, List.length_cons]
      exact Nat.succ_pos _
    · have hne : rest ≠ [] := by
        rintro rfl
        exact hall (by simp)
      simp only [argminIdx, if_neg hall, List.length_cons]
      exact Nat.succ_lt_succ (ih hne)

theorem argminIdx_min (l : List Nat) (j : Nat) (hj : j < l.length) :
    l.getD (argminIdx l) 0 ≤ l.getD j 0 := by
  induction l generalizing j with
  | nil => simp at hj
  | cons r rest ih =>
    by_cases hall : ∀ x ∈ rest, r ≤ x
    · simp only [argminIdx, if_pos hall, List.getD_cons_zero]
      cases j with
      | zero => simp
      | succ n =>
        rw [List.getD_cons_succ]
        exact hall _ (getD_mem rest n 0 (Nat.lt_of_succ_lt_succ hj))
    · simp only [argminIdx, if_neg hall, List.getD_cons_succ]
      cases j with
      | zero =>
        rw [List.getD_cons_zero]
        push_neg at hall
        obtain ⟨x, hxm, hxlt⟩ := hall
        obtain ⟨n, hn, he⟩ := mem_getD rest x 0 hxm
        calc rest.getD (argminIdx rest) 0 ≤ rest.getD n 0 := ih n hn
          _ = x := he
          _ ≤ r := le_of_lt hxlt
      | succ n =>
        rw [List.getD_cons_succ]
        exact ih n (Nat.lt_of_succ_lt_succ hj)

theorem argminIdx_first (l : List Nat) (j : Nat) (hj : j < argminIdx l) :
    l.getD (argminIdx l) 0 < l.getD j 0 := by
  induction l generalizing j with
  | nil => simp [argminIdx] at hj
  | cons r rest ih =>
    by_cases hall : ∀ x ∈ rest, r ≤ x
    · rw [show argminIdx (r :: rest) = 0 from by
        simp only [argminIdx]; exact if_pos hall] at hj
      exact absurd hj (Nat.not_lt_zero j)
    · have hrew : argminIdx (r :: rest) = argminIdx rest + 1 := by
        simp only [argminIdx]; exact if_neg hall
      rw [hrew] at hj
      rw [hrew, List.getD_cons_succ]
      cases j with
      | zero =>
        rw [List.getD_cons_zero]
        push_neg at hall
        obtain ⟨x, hxm, hxlt⟩ := hall
        obtain ⟨n, hn, he⟩ := mem_getD rest x 0 hxm
        calc rest.getD (argminIdx rest) 0 ≤ rest.getD n 0 := argminIdx_min rest n hn
          _ = x := he
          _ < r := hxlt
      | succ n =>
        rw [List.getD_cons_succ]
        exact ih n (Nat.lt_of_succ_lt_succ hj)

/-! ### Case-analysis helpers on the lookup tables -/

theorem time_code_cases (fy ey : Int) (tc : Option Nat)
    (h : convert_bs_to_dist_time_code fy ey = Except.ok tc) :
    tc = none ∨ tc = some 1 ∨ tc = some 2 ∨ tc = some 3 := by
  unfold convert_bs_to_dist_time_code at h
  split at h
  · exact absurd h (by simp)
  · split at h
    · simp at h
      simp [h]
    · split at h
      · simp at h
        simp [h]
      · split at h
        · simp at h
          simp [h]
        · simp at h
          simp [h]

theorem sev_map_cases (v : Int) (s : Nat) (h : bs_to_dist_sev_map v = some s) :
    s = 1 ∨ s = 2 ∨ s = 3 := by
  unfold bs_to_dist_sev_map at h
  split at h
  · simp at h; simp [h.symm]
  · split at h
    · simp at h; simp [h.symm]
    · split at h
      · simp at h; simp [h.symm]
      · split at h
        · simp at h; simp [h.symm]
        · split at h
          · simp at h; simp [h.symm]
          · exact absurd h (by simp)

/-! ### Claim theorems -/

/-- Claim C4: for every non-empty per-pixel stack, `combine_pixel` selects
the code at the first index achieving the minimum impact rank (unknown and
nodata codes carrying the sentinel rank), ties broken by input order; in
particular the stack `[122, 0, 131]` with nodata 0 yields 131 and the stack
`[112, 112]` yields 112. -/
theorem combine_min_rank_spec (stack : List Int) (nodata_val : Int)
    (h : stack ≠ []) :
    (argminIdx (stack.map impact_rank) < stack.length ∧
     combine_pixel stack nodata_val =
       stack.getD (argminIdx (stack.map impact_rank)) 0 ∧
     (∀ j < stack.length,
       impact_rank (stack.getD (argminIdx (stack.map impact_rank)) 0) ≤
         impact_rank (stack.getD j 0)) ∧
     (∀ j < argminIdx (stack.map impact_rank),
       impact_rank (stack.getD (argminIdx (stack.map impact_rank)) 0) <
         impact_rank (stack.getD j 0))) ∧
    combine_pixel [122, 0, 131] 0 = 131 ∧
    combine_pixel [112, 112] 0 = 112 := by
  have hmapne : stack.map impact_rank ≠ [] := by
    simpa using h
  have hlt : argminIdx (stack.map impact_rank) < stack.length := by
    have := argminIdx_lt (stack.map impact_rank) hmapne
    simpa using this
  refine ⟨⟨hlt, ?_, ?_, ?_⟩, by decide, by decide⟩
  · unfold combine_pixel
    by_cases hall : ∀ x ∈ stack, x = nodata_val
    · simp only [if_pos hall]
      have hmem : stack.getD (argminIdx (stack.map impact_rank)) 0 ∈ stack :=
        getD_mem stack _ 0 hlt
      exact (hall _ hmem).symm
    · simp only [if_neg hall]
  · intro j hj
    have h1 := argminIdx_min (stack.map impact_rank) j (by simpa using hj)
    rwa [getD_map_rank stack j hj, getD_map_rank stack _ hlt] at h1
  · intro j hj
    have hjlt : j < stack.length := lt_trans hj hlt
    have h1 := argminIdx_first (stack.map impact_rank) j hj
    rwa [getD_map_rank stack j hjlt, getD_map_rank stack _ hlt] at h1

/-- Witness for C4 at the concrete stack `[122, 0, 131]`. -/
theorem combine_min_rank_spec_witness :
    ([122, 0, 131] : List Int) ≠ [] ∧
    combine_pixel [122, 0, 131] 0 = 131 ∧
    combine_pixel [112, 112] 0 = 112 := by
  refine ⟨by decide, ?_, ?_⟩
  · exact (combine_min_rank_spec [122, 0, 131] 0 (by decide)).2.1
  · exact (combine_min_rank_spec [112, 112] 0 (by decide)).2.2

/-- Claim C5: when every code of a (non-empty) stack equals the nodata
value, `combine_pixel` outputs nodata, never a sentinel-rank-derived value;
in particular `[0, 0, 0]` with nodata 0 yields 0. -/
theorem combine_all_nodata_spec (stack : List Int) (nodata_val : Int)
    (h : stack ≠ []) (hall : ∀ x ∈ stack, x = nodata_val) :
    combine_pixel stack nodata_val = nodata_val ∧
    combine_pixel [0, 0, 0] 0 = 0 := by
  constructor
  · unfold combine_pixel
    simp only [if_pos hall]
  · decide

/-- Witness for C5 at the concrete all-nodata stack `[5, 5]`. -/
theorem combine_all_nodata_spec_witness :
    ([5, 5] : List Int) ≠ [] ∧ (∀ x ∈ ([5, 5] : List Int), x = 5) ∧
    combine_pixel [5, 5] 5 = 5 := by
  refine ⟨by decide, by decide, ?_⟩
  exact (combine_all_nodata_spec [5, 5] 5 (by decide) (by decide)).1

/-- Claim C10: `combine_dist_rasters` called with an empty input list
returns `None`, raises nothing, and creates no output file. -/
theorem combine_empty_input_spec (output_path : String)
    (open_inputs process : Except FMError Unit) :
    combine_dist_rasters [] output_path open_inputs process =
      Except.ok (none, false) := rfl

/-- Claim C8 (code bug): an I/O failure inside the processing stage of
`combine_dist_rasters` is swallowed by the `except` clause, and the function
still reports success by returning the output path with the (partially
written) output file in place. -/
theorem combine_swallows_io_failure :
    combine_dist_rasters ["a.tif"] "out.tif" (Except.ok ())
      (Except.error (FMError.ioError "out.tif")) =
      Except.ok (some "out.tif", true) := rfl

/-- Claim C1 (code bug): with a disturbance code distinct from nodata and a
burnable original code, a pair present in the rule table and mapped to a
replacement yields the replacement, but a pair absent from the table yields
Python `None` (here `none`) instead of the unchanged original code. -/
theorem reclassify_rule_table_bug :
    get_new_fm40 [((131, 165), some 182)] 0 (-32768) 131 165 = some 182 ∧
    get_new_fm40 [((131, 140), some 182)] 0 (-32768) 131 165 = none ∧
    get_new_fm40 [((131, 165), none)] 0 (-32768) 131 165 = none := by
  refine ⟨?_, ?_, ?_⟩ <;> decide

/-- Claim C7 (code bug): the reclassifier does not resolve an unrecognized
`(distCode, originalCode)` pair to nodata or to the unchanged value — it
produces Python `None`, which the surrounding vectorized cast turns into a
raised `TypeError` during the sweep. -/
theorem reclassify_unrecognized_pair_bug :
    get_new_fm40 [((131, 165), some 182)] 0 (-32768) 112 183 = none := by
  decide

/-- Claim C6: the reclassifier short-circuits in order — both codes nodata
propagates the FM40 nodata; disturbance nodata alone leaves the original
code unchanged; a non-burnable original code (≤ 100) is left unchanged for
any non-nodata disturbance code. -/
theorem reclassify_short_circuit_spec
    (rules : List ((Int × Int) × Option Int))
    (dist_nodata fm40_nodata d_code o_code : Int) :
    (d_code = dist_nodata → o_code = fm40_nodata →
      get_new_fm40 rules dist_nodata fm40_nodata d_code o_code =
        some fm40_nodata) ∧
    (d_code = dist_nodata → o_code ≠ fm40_nodata →
      get_new_fm40 rules dist_nodata fm40_nodata d_code o_code =
        some o_code) ∧
    (d_code ≠ dist_nodata → o_code ≤ 100 →
      get_new_fm40 rules dist_nodata fm40_nodata d_code o_code =
        some o_code) := by
  refine ⟨?_, ?_, ?_⟩
  · intro h1 h2
    unfold get_new_fm40
    rw [if_pos ⟨h1, h2⟩]
  · intro h1 h2
    unfold get_new_fm40
    rw [if_neg (by exact fun hc => h2 hc.2), if_pos (Or.inl h1)]
  · intro h1 h2
    unfold get_new_fm40
    rw [if_neg (by exact fun hc => h1 hc.1), if_pos (Or.inr h2)]

/-- Witness for C6 at concrete pixels: both-nodata, disturbance-nodata with
a live original code, and a non-burnable original code 91 under
disturbance 131. -/
theorem reclassify_short_circuit_spec_witness :
    get_new_fm40 [] 0 (-32768) 0 (-32768) = some (-32768) ∧
    get_new_fm40 [] 0 (-32768) 0 165 = some 165 ∧
    get_new_fm40 [] 0 (-32768) 131 91 = some 91 := by
  refine ⟨?_, ?_, ?_⟩
  · exact (reclassify_short_circuit_spec [] 0 (-32768) 0 (-32768)).1
      rfl rfl
  · exact (reclassify_short_circuit_spec [] 0 (-32768) 0 165).2.1
      rfl (by decide)
  · exact (reclassify_short_circuit_spec [] 0 (-32768) 131 91).2.2
      (by decide) (by decide)

/-- Claim C2: with `delta = effective_year - fire_year`, the conversion
fails with `InvalidInput` exactly when `delta < 0`; otherwise it assigns
time code 1 for `delta < 1`, 2 for `1 ≤ delta ≤ 5`, 3 for `5 < delta ≤ 10`,
and no time code for `delta > 10`, in which case the per-pixel encoding
produces only nodata rather than an error. -/
theorem encode_time_code_spec (fire_year effective_year : Int) :
    (convert_bs_to_dist_time_code fire_year effective_year =
        Except.error FMError.invalidInput ↔
      effective_year - fire_year < 0) ∧
    (0 ≤ effective_year - fire_year → effective_year - fire_year < 1 →
      convert_bs_to_dist_time_code fire_year effective_year =
        Except.ok (some 1)) ∧
    (1 ≤ effective_year - fire_year → effective_year - fire_year ≤ 5 →
      convert_bs_to_dist_time_code fire_year effective_year =
        Except.ok (some 2)) ∧
    (5 < effective_year - fire_year → effective_year - fire_year ≤ 10 →
      convert_bs_to_dist_time_code fire_year effective_year =
        Except.ok (some 3)) ∧
    (10 < effective_year - fire_year →
      convert_bs_to_dist_time_code fire_year effective_year =
        Except.ok none) ∧
    (∀ v : Int, convert_bs_to_dist_pixel none v = 0) := by
  refine ⟨⟨?_, ?_⟩, ?_, ?_, ?_, ?_, fun v => rfl⟩
  · intro herr
    by_contra hge
    push_neg at hge
    have hok : ∃ tc, convert_bs_to_dist_time_code fire_year effective_year =
        Except.ok tc := by
      unfold convert_bs_to_dist_time_code
      rw [if_neg (by omega)]
      split
      · exact ⟨some 1, rfl⟩
      · split
        · exact ⟨some 2, rfl⟩
        · split
          · exact ⟨some 3, rfl⟩
          · exact ⟨none, rfl⟩
    obtain ⟨tc, htc⟩ := hok
    rw [htc] at herr
    exact Except.noConfusion herr
  · intro hlt
    unfold convert_bs_to_dist_time_code
    rw [if_pos (by omega)]
  · intro h1 h2
    unfold convert_bs_to_dist_time_code
    rw [if_neg (by omega), if_pos (by omega)]
  · intro h1 h2
    unfold convert_bs_to_dist_time_code
    rw [if_neg (by omega), if_neg (by omega), if_pos ⟨h1, h2⟩]
  · intro h1 h2
    unfold convert_bs_to_dist_time_code
    rw [if_neg (by omega), if_neg (by omega), if_neg (by omega),
      if_pos ⟨h1, h2⟩]
  · intro h1
    unfold convert_bs_to_dist_time_code
    rw [if_neg (by omega), if_neg (by omega), if_neg (by omega),
      if_neg (by omega)]

/-- Witness for C2 at the spec's concrete deltas 0, 5, 6 and 11 and at the
per-pixel all-nodata case. -/
theorem encode_time_code_spec_witness :
    convert_bs_to_dist_time_code 2018 2018 = Except.ok (some 1) ∧
    convert_bs_to_dist_time_code 2013 2018 = Except.ok (some 2) ∧
    convert_bs_to_dist_time_code 2012 2018 = Except.ok (some 3) ∧
    convert_bs_to_dist_time_code 2007 2018 = Except.ok none := by
  refine ⟨?_, ?_, ?_, ?_⟩
  · exact (encode_time_code_spec 2018 2018).2.1 (by norm_num) (by norm_num)
  · exact (encode_time_code_spec 2013 2018).2.2.1 (by norm_num) (by norm_num)
  · exact (encode_time_code_spec 2012 2018).2.2.2.1 (by norm_num)
      (by norm_num)
  · exact (encode_time_code_spec 2007 2018).2.2.2.2.1 (by norm_num)

/-- Claim C3: for every time code produced by a valid year pair and every
pixel value, the encoding outputs nodata when the time code is `None`,
`100 + 10 * severityCode(v) + timeCode` when `v` is a severity-map key, and
nodata for every other `v`; consequently every output is one of the nine
valid disturbance codes or nodata. -/
theorem encode_pixel_spec (fire_year effective_year v : Int)
    (tc : Option Nat) (hvalid : fire_year ≤ effective_year)
    (htc : convert_bs_to_dist_time_code fire_year effective_year =
      Except.ok tc) :
    (tc = none → convert_bs_to_dist_pixel tc v = 0) ∧
    (∀ t sev_code, tc = some t → bs_to_dist_sev_map v = some sev_code →
      convert_bs_to_dist_pixel tc v =
        100 + (sev_code : Int) * 10 + (t : Int)) ∧
    (bs_to_dist_sev_map v = none → convert_bs_to_dist_pixel tc v = 0) ∧
    convert_bs_to_dist_pixel tc v ∈ valid_dist_codes := by
  refine ⟨?_, ?_, ?_, ?_⟩
  · rintro rfl
    rfl
  · rintro t s rfl hs
    simp [convert_bs_to_dist_pixel, hs]
  · intro hn
    cases tc with
    | none => rfl
    | some t => simp [convert_bs_to_dist_pixel, hn]
  · have hmem : ∀ t : Nat, t = 1 ∨ t = 2 ∨ t = 3 →
        convert_bs_to_dist_pixel (some t) v ∈ valid_dist_codes := by
      intro t ht
      cases hs : bs_to_dist_sev_map v with
      | none => simp [convert_bs_to_dist_pixel, hs, valid_dist_codes]
      | some s =>
        rcases sev_map_cases v s hs with rfl | rfl | rfl <;>
          rcases ht with rfl | rfl | rfl <;>
          norm_num [convert_bs_to_dist_pixel, hs, valid_dist_codes]
    rcases time_code_cases _ _ _ htc with rfl | rfl | rfl | rfl
    · simp [convert_bs_to_dist_pixel, valid_dist_codes]
    · exact hmem 1 (by norm_num)
    · exact hmem 2 (by norm_num)
    · exact hmem 3 (by norm_num)

/-- Witness for C3 at the valid pair (2017, 2018) and burn-severity
value 4 (high severity), whose output 132 is a valid disturbance code. -/
theorem encode_pixel_spec_witness :
    (2017 : Int) ≤ 2018 ∧
    convert_bs_to_dist_time_code 2017 2018 = Except.ok (some 2) ∧
    convert_bs_to_dist_pixel (some 2) 4 ∈ valid_dist_codes := by
  refine ⟨by norm_num, rfl, ?_⟩
  exact (encode_pixel_spec 2017 2018 4 (some 2) (by norm_num) rfl).2.2.2

/-- Claim C9 counterexample: `convert_bs_to_dist` never uses the identity
view — even for a source whose grid is identical to the alignment target it
constructs a warped view. -/
theorem convert_bs_always_warps_cex :
    convert_bs_to_dist_src ⟨4326, 30, 0, -30, 0, 100, 100⟩
      ⟨4326, 30, 0, -30, 0, 100, 100⟩ ≠ ViewChoice.identity := by
  decide

/-- Claim C9 (amended): `update_fm40_raster` uses the identity view when
CRS, transform and shape all match; `convert_bs_to_dist` always constructs a
warped view, even for matching grids; and a nearest-neighbor aligned read
whose source and target grids are identical returns, at every in-bounds
pixel, exactly the source pixel. -/
theorem aligned_identity_spec (g src_fm40 src_dist : GridDescriptor)
    (data : Nat → Nat → Int) (nodata : Int) (row col : Nat)
    (ha : g.a ≠ 0) (he : g.e ≠ 0)
    (hrow : row < g.height) (hcol : col < g.width) :
    (src_dist.crs = src_fm40.crs →
      (src_dist.a, src_dist.c, src_dist.e, src_dist.f) =
        (src_fm40.a, src_fm40.c, src_fm40.e, src_fm40.f) →
      (src_dist.height, src_dist.width) = (src_fm40.height, src_fm40.width) →
      update_fm40_dist_src src_fm40 src_dist = ViewChoice.identity) ∧
    convert_bs_to_dist_src g g = ViewChoice.warped ∧
    alignedRead g g data nodata row col = data row col := by
  refine ⟨?_, rfl, ?_⟩
  · intro h1 h2 h3
    unfold update_fm40_dist_src
    rw [if_neg]
    push_neg
    exact ⟨h1, h2, h3⟩
  · unfold alignedRead pixelToWorld worldToPixel
    have hc : (g.a * ((col : ℚ) + 1 / 2) + g.c - g.c) / g.a =
        (col : ℚ) + 1 / 2 := by
      field_simp
      ring
    have hr : (g.e * ((row : ℚ) + 1 / 2) + g.f - g.f) / g.e =
        (row : ℚ) + 1 / 2 := by
      field_simp
      ring
    simp only [hc, hr]
    have hfc : ⌊(col : ℚ) + 1 / 2⌋ = (col : Int) := by
      rw [Int.floor_eq_iff]
      constructor
      · push_cast
        linarith
      · push_cast
        linarith
    have hfr : ⌊(row : ℚ) + 1 / 2⌋ = (row : Int) := by
      rw [Int.floor_eq_iff]
      constructor
      · push_cast
        linarith
      · push_cast
        linarith
    rw [hfc, hfr, if_pos]
    · simp
    · refine ⟨by positivity, ?_, by positivity, ?_⟩
      · exact_mod_cast hcol
      · exact_mod_cast hrow

/-- Witness for C9 (amended) on a concrete 100×100 grid at pixel
(row 3, col 5): the identity selection in `update_fm40_raster`, and the
aligned read through an identical grid returning the direct pixel value. -/
theorem aligned_identity_spec_witness :
    (30 : ℚ) ≠ 0 ∧ (-30 : ℚ) ≠ 0 ∧ (3 : Nat) < 100 ∧ (5 : Nat) < 100 ∧
    update_fm40_dist_src ⟨4326, 30, 0, -30, 0, 100, 100⟩
      ⟨4326, 30, 0, -30, 0, 100, 100⟩ = ViewChoice.identity ∧
    alignedRead ⟨4326, 30, 0, -30, 0, 100, 100⟩
      ⟨4326, 30, 0, -30, 0, 100, 100⟩
      (fun r c => (r : Int) * 1000 + (c : Int)) 0 3 5 = 3005 := by
  have h := aligned_identity_spec ⟨4326, 30, 0, -30, 0, 100, 100⟩
    ⟨4326, 30, 0, -30, 0, 100, 100⟩ ⟨4326, 30, 0, -30, 0, 100, 100⟩
    (fun r c => (r : Int) * 1000 + (c : Int)) 0 3 5
    (by norm_num) (by norm_num) (by norm_num) (by norm_num)
  refine ⟨by norm_num, by norm_num, by norm_num, by norm_num,
    h.1 rfl rfl rfl, ?_⟩
  rw [h.2.2]
  norm_num
